import Mathlib

/-!
# Verification of the pygls JSON-RPC endpoint (`pygls/jsonrpc/endpoint.py`)

A shallow embedding of the `Endpoint` class: message classification
(`consume`), request/notification/response handling, the two correlation
tables (`_client_request_futures`, `_server_request_futures`), the outgoing
operations (`notify`, `request`), and the cooperative cancellation protocol.

The embedding models:
* JSON values as the inductive `Value`; the Python `None` that a missing
  dict key produces is modelled by `Option`, with JSON `null` collapsing to
  Python `None` at `.get` boundaries (`pyGet`);
* the external consumer callback as an output log (`EndpointState.out`)
  to which every `self._consumer(message)` call appends;
* `concurrent.futures.Future` as an explicit state machine (`Future`):
  each future carries at most one done-callback, which fires exactly once
  at the first transition to a done state (cancel / set_result /
  set_exception), as the endpoint code relies on; a later
  `set_result`/`set_exception` on an already-done future records the new
  outcome without re-firing the callback.  This is the collaborator
  contract the endpoint code assumes (`_cancel_callback` and
  `_request_callback` both call `set_exception` on a future they have just
  observed as cancelled, and then read the recorded outcome back with
  `future.result()`);
* the thread pool (`futures.ThreadPoolExecutor`) as a queue of submitted
  tasks (`EndpointState.tasks`); a separate step `runTask` models a worker
  picking a task up, which first performs the pool's
  `set_running_or_notify_cancel` check: the deferred work only executes if
  its future is still pending, otherwise the task is skipped.
-/

namespace PyglsEndpoint

/-- A JSON value, as delivered to `consume` after parsing. -/
inductive Value where
  | null
  | bool (b : Bool)
  | num (n : Int)
  | str (s : String)
  | obj (fields : List (String × Value))

/-- A JSON-RPC message id: per JSON-RPC 2.0 an id is a string or a number.
These are the keys of both correlation tables. -/
inductive RpcId where
  | num (n : Int)
  | str (s : String)
deriving DecidableEq

/-- `CANCEL_METHOD = '$/cancelRequest'` -/
def CANCEL_METHOD : String := "$/cancelRequest"

/-- `JSONRPC_VERSION = '2.0'` -/
def JSONRPC_VERSION : String := "2.0"

/-- An incoming or outgoing JSON-RPC message `dict`.  Each field is
`none` when the corresponding key is absent from the dict. -/
structure Msg where
  jsonrpc : Option String
  id : Option RpcId
  method : Option String
  params : Option Value
  result : Option Value
  error : Option Value

/-- The all-absent message dict, a base for building concrete messages. -/
def Msg.empty : Msg := ⟨none, none, none, none, none, none⟩

/-- Models Python's `message.get(key)` on a parsed-JSON dict slot: a JSON
`null` value and an absent key both produce Python `None`. -/
def pyGet (v : Option Value) : Option Value :=
  match v with
  | some .null => none
  | x => x

/-- Modelled from the spec (`pygls/jsonrpc/exceptions.py` is not under
`src/`): a structured JSON-RPC error, `{code, message, data?}` (spec §3
ErrorObject), carried by `JsonRpcException` and its subclasses. -/
structure RpcError where
  code : Int
  message : String
  data : Option Value

/-- Modelled from the spec: the `MethodNotFound` error kind
(`JsonRpcMethodNotFound.of(method)`), with the standard JSON-RPC code. -/
def methodNotFoundError (method : String) : RpcError :=
  ⟨-32601, "Method Not Found: " ++ method, none⟩

/-- Modelled from the spec: the `RequestCancelled` error kind
(`JsonRpcRequestCancelled()`), with the LSP request-cancelled code. -/
def requestCancelledError : RpcError :=
  ⟨-32800, "Request Cancelled", none⟩

/-- Modelled from the spec: `InternalError` wraps any handler failure
without a recognized structured shape, carrying diagnostic detail as
`data` (`JsonRpcInternalError.of(sys.exc_info())`). -/
def internalError (detail : String) : RpcError :=
  ⟨-32602, "Internal Error", some (.str detail)⟩

/-- Modelled from the spec: `JsonRpcException.to_dict()` serializes a
structured error to the wire shape `{code, message, data?}`. -/
def RpcError.toDict (e : RpcError) : Value :=
  match e.data with
  | none => .obj [("code", .num e.code), ("message", .str e.message)]
  | some d => .obj [("code", .num e.code), ("message", .str e.message), ("data", d)]

/-- Looks a key up in a JSON object value. -/
def Value.lookup (v : Value) (key : String) : Option Value :=
  match v with
  | .obj fields => go fields
  | _ => none
where go : List (String × Value) → Option Value
  | [] => none
  | (k, x) :: rest => if k = key then some x else go rest

/-- Modelled from the spec: `JsonRpcException.from_dict(error)` decodes a
wire error object back into a structured error ("a decoded structured
error derived from the error object", spec §4.6). -/
def RpcError.fromDict (v : Value) : RpcError :=
  { code := match v.lookup "code" with
      | some (.num n) => n
      | _ => 0
    message := match v.lookup "message" with
      | some (.str s) => s
      | _ => ""
    data := v.lookup "data" }

/-- A Python exception, as raised by handlers or by the endpoint itself.
`jsonRpc` covers `JsonRpcException` and all its subclasses (the ones the
`except JsonRpcException` clauses catch); the other constructors are
non-JsonRpc exceptions. -/
inductive PyExc where
  | jsonRpc (e : RpcError)
  | keyError (key : String)
  | typeError (detail : String)
  | other (detail : String)

/-- What a dispatcher handler invocation does: return a plain
(non-callable) value, return a callable to run asynchronously (modelled
by the outcome the deferred work would produce when executed), or raise. -/
inductive HandlerResult where
  | value (v : Option Value)
  | deferred (work : Except PyExc (Option Value))
  | raises (e : PyExc)

/-- The dispatcher: a mapping from method name to handler.  A handler
receives `message.get('params')`. -/
def Dispatcher : Type := String → Option (Option Value → HandlerResult)

/-- The state of a `concurrent.futures.Future`. -/
inductive FutState where
  | pending
  | cancelled
  | finished (outcome : Except PyExc (Option Value))

/-- `future.cancelled()`. -/
def FutState.isCancelled : FutState → Bool
  | .cancelled => true
  | _ => false

/-- A future is done once it is cancelled or finished. -/
def FutState.isDone : FutState → Bool
  | .pending => false
  | _ => true

/-- The done-callback attached to a future.  In the endpoint each future
carries at most one: `_cancel_callback(request_id)` on server-request
futures, `_request_callback(request_id)` on client-request futures, and
`_notification_callback(method, params)` (purely logging) on async
notification futures. -/
inductive FutCallback where
  | none
  | cancelCb (requestId : RpcId)
  | requestCb (requestId : RpcId)
  | notificationCb

/-- A `concurrent.futures.Future`: its state, its attached done-callback,
and whether the done-callback has already been fired. -/
structure Future where
  state : FutState
  cb : FutCallback
  notified : Bool

/-- Status of a work item submitted to the executor pool. -/
inductive TaskStatus where
  | queued
  | ran
  | skipped
deriving DecidableEq

/-- A deferred work item submitted to the executor pool, tied to the
future `submit` returned. -/
structure Task where
  fid : Nat
  work : Except PyExc (Option Value)
  status : TaskStatus

/-- The mutable state of an `Endpoint`, together with the log of messages
handed to the external consumer. -/
structure EndpointState where
  /-- `self._client_request_futures`: request id → future (store key). -/
  clientReqFutures : List (RpcId × Nat)
  /-- `self._server_request_futures`: request id → future (store key). -/
  serverReqFutures : List (RpcId × Nat)
  /-- The store of live future objects, keyed by an allocation counter. -/
  futures : List (Nat × Future)
  /-- Next fresh future key. -/
  nextFut : Nat
  /-- Work items submitted to `self._executor_service`. -/
  tasks : List Task
  /-- Every message passed to `self._consumer`, oldest first. -/
  out : List Msg

/-- A fresh endpoint: both correlation tables empty, nothing submitted,
nothing sent. -/
def initState : EndpointState :=
  { clientReqFutures := []
    serverReqFutures := []
    futures := []
    nextFut := 0
    tasks := []
    out := [] }

/-! ## Association-list primitives (Python `dict` operations) -/

/-- `d[k]` / `d.get(k)`: the value bound to `k`, if any. -/
def alookup {α β : Type} [DecidableEq α] : List (α × β) → α → Option β
  | [], _ => none
  | (k, v) :: rest, key => if k = key then some v else alookup rest key

/-- Removes every binding of `k` (a `dict` holds at most one). -/
def aerase {α β : Type} [DecidableEq α] : List (α × β) → α → List (α × β)
  | [], _ => []
  | (k, v) :: rest, key =>
      if k = key then aerase rest key else (k, v) :: aerase rest key

/-- `d[k] = v`: binds `k` to `v`, replacing any previous binding. -/
def ainsert {α β : Type} [DecidableEq α] (l : List (α × β)) (k : α) (v : β) :
    List (α × β) :=
  aerase l k ++ [(k, v)]

/-- Applies `f` to the value bound to `k`, leaving other bindings alone. -/
def aupdate {α β : Type} [DecidableEq α] (l : List (α × β)) (k : α) (f : β → β) :
    List (α × β) :=
  match l with
  | [] => []
  | (k₀, v) :: rest =>
      if k₀ = k then (k₀, f v) :: aupdate rest k f
      else (k₀, v) :: aupdate rest k f

/-! ## State primitives -/

/-- `self._consumer(message)`: append the outgoing message to the log. -/
def emit (s : EndpointState) (m : Msg) : EndpointState :=
  { s with out := s.out ++ [m] }

/-- Replace a future's state, keeping its callback and notified flag. -/
def stateTo (st : FutState) : Future → Future :=
  fun f => { f with state := st }

/-- Mark a future's done-callback as fired. -/
def noteDone : Future → Future :=
  fun f => { f with notified := true }

/-- Overwrite the state of the future stored under `fid`. -/
def setFutState (s : EndpointState) (fid : Nat) (st : FutState) : EndpointState :=
  { s with futures := aupdate s.futures fid (stateTo st) }

/-- Record that the done-callback of the future under `fid` has fired. -/
def markNotified (s : EndpointState) (fid : Nat) : EndpointState :=
  { s with futures := aupdate s.futures fid noteDone }

/-- Set the status of the task submitted for future `fid`. -/
def setTaskStatus (s : EndpointState) (fid : Nat) (st : TaskStatus) : EndpointState :=
  { s with tasks := s.tasks.map fun t =>
      if t.fid = fid then { t with status := st } else t }

/-! ## Outgoing message shapes -/

/-- Embeds a message id into a JSON value (for cancel-notification params). -/
def idToValue : RpcId → Value
  | .num n => .num n
  | .str s => .str s

/-- `notify` body: `{jsonrpc, method}` plus `params` only when supplied. -/
def notifyMsg (method : String) (params : Option Value) : Msg :=
  { jsonrpc := some JSONRPC_VERSION, id := none, method := some method,
    params := params, result := none, error := none }

/-- `request` body: `{jsonrpc, id, method}` plus `params` only when supplied. -/
def requestMsg (msgId : RpcId) (method : String) (params : Option Value) : Msg :=
  { jsonrpc := some JSONRPC_VERSION, id := some msgId, method := some method,
    params := params, result := none, error := none }

/-- Success response `{jsonrpc, id, result}` (a `None` result is sent as
JSON `null`). -/
def successMsg (msgId : RpcId) (v : Option Value) : Msg :=
  { jsonrpc := some JSONRPC_VERSION, id := some msgId, method := none,
    params := none, result := some (v.getD .null), error := none }

/-- Error response `{jsonrpc, id, error}`. -/
def errorMsg (msgId : RpcId) (e : RpcError) : Msg :=
  { jsonrpc := some JSONRPC_VERSION, id := some msgId, method := none,
    params := none, result := none, error := some e.toDict }

/-- The response `_request_callback` builds from `future.result()`:
`message['result'] = ...` on success, `message['error'] = ...` when the
result raises (a `JsonRpcException` is preserved, anything else is wrapped
as `InternalError`). -/
def callbackMsg (msgId : RpcId) (outcome : Except PyExc (Option Value)) : Msg :=
  match outcome with
  | .ok v => successMsg msgId v
  | .error (.jsonRpc e) => errorMsg msgId e
  | .error _ => errorMsg msgId (internalError "unhandled exception")

/-! ## Future state machine -/

/-- Run the done-callback attached to the future under `fid`, observing the
future's current state.  `_cancel_callback`: if the future was cancelled,
send a cancel notification to the peer and `set_exception(RequestCancelled)`.
`_request_callback`: drop the id from the client-request table, convert a
cancelled future into a `RequestCancelled` failure, then build and send the
response from `future.result()`.  The `set_exception` calls inside the
callbacks write the future's recorded outcome directly: the callback has
just fired, so no re-notification happens. -/
def runCallback (s : EndpointState) (fid : Nat) : EndpointState :=
  match alookup s.futures fid with
  | none => s
  | some fut =>
    match fut.cb with
    | .none => s
    | .notificationCb => s
    | .cancelCb rid =>
        if fut.state.isCancelled then
          let s1 := emit s (notifyMsg CANCEL_METHOD (some (.obj [("id", idToValue rid)])))
          setFutState s1 fid (.finished (.error (.jsonRpc requestCancelledError)))
        else s
    | .requestCb rid =>
        let s1 := { s with clientReqFutures := aerase s.clientReqFutures rid }
        if fut.state.isCancelled then
          let s2 := setFutState s1 fid (.finished (.error (.jsonRpc requestCancelledError)))
          emit s2 (callbackMsg rid (.error (.jsonRpc requestCancelledError)))
        else
          match fut.state with
          | .finished o => emit s1 (callbackMsg rid o)
          | _ => s1

/-- Fire the done-callback of the future under `fid`, once: callbacks are
invoked at the first transition to a done state and never again. -/
def fireDone (s : EndpointState) (fid : Nat) : EndpointState :=
  match alookup s.futures fid with
  | none => s
  | some fut => if fut.notified then s else runCallback (markNotified s fid) fid

/-- `future.cancel()`: succeeds only while the future is pending (or was
already cancelled); a successful transition fires the done-callback. -/
def futCancel (s : EndpointState) (fid : Nat) : EndpointState × Bool :=
  match alookup s.futures fid with
  | none => (s, false)
  | some fut =>
    match fut.state with
    | .pending => (fireDone (setFutState s fid .cancelled) fid, true)
    | .cancelled => (s, true)
    | .finished _ => (s, false)

/-- `future.set_result(result)`: record the outcome and fire the
done-callback if it has not fired yet. -/
def futSetResult (s : EndpointState) (fid : Nat) (v : Option Value) : EndpointState :=
  fireDone (setFutState s fid (.finished (.ok v))) fid

/-- `future.set_exception(exc)`: record the failure and fire the
done-callback if it has not fired yet. -/
def futSetException (s : EndpointState) (fid : Nat) (e : PyExc) : EndpointState :=
  fireDone (setFutState s fid (.finished (.error e))) fid

/-! ## Endpoint operations -/

/-- `Endpoint.notify(method, params)`: build the notification message and
hand it to the consumer. -/
def notify (s : EndpointState) (method : String) (params : Option Value) :
    EndpointState :=
  emit s (notifyMsg method params)

/-- `Endpoint.request(method, params)`: build the request message, create a
fresh pending future with `_cancel_callback(msg_id)` attached, store it in
`_server_request_futures[msg_id]`, send the message, and return the future
(as its store key).  `msgId` stands for the value `self._id_generator()`
returned for this call. -/
def request (s : EndpointState) (msgId : RpcId) (method : String)
    (params : Option Value) : EndpointState × Nat :=
  let fid := s.nextFut
  let fut : Future := { state := .pending, cb := .cancelCb msgId, notified := false }
  let s1 := { s with futures := s.futures ++ [(fid, fut)], nextFut := s.nextFut + 1 }
  let s2 := { s1 with serverReqFutures := ainsert s1.serverReqFutures msgId fid }
  (emit s2 (requestMsg msgId method params), fid)

/-- The local caller cancels the handle `request()` returned
(`request_future.cancel()`); a successful cancellation fires the attached
`_cancel_callback`. -/
def cancelHandle (s : EndpointState) (fid : Nat) : EndpointState :=
  (futCancel s fid).1

/-- `Endpoint._handle_cancel_notification(msg_id)`: pop the id from
`_client_request_futures`; if absent, log and return; otherwise try to
cancel the future (which only works if the request has not started
executing). -/
def handleCancelNotification (s : EndpointState) (msgId : RpcId) : EndpointState :=
  match alookup s.clientReqFutures msgId with
  | none => s
  | some fid =>
      (futCancel { s with clientReqFutures := aerase s.clientReqFutures msgId } fid).1

/-- Evaluates `params['id']` for the cancel notification: raises when
`params` is `None`, is not an object, or lacks an `"id"` key.  Message ids
are modelled as JSON-RPC string-or-number ids. -/
def paramsId (params : Option Value) : Except PyExc RpcId :=
  match params with
  | none => .error (.typeError "NoneType is not subscriptable")
  | some v =>
    match v with
    | .obj _ =>
      match v.lookup "id" with
      | some (.num n) => .ok (.num n)
      | some (.str t) => .ok (.str t)
      | some _ => .error (.typeError "invalid id value")
      | none => .error (.keyError "id")
    | _ => .error (.typeError "value is not subscriptable")

/-- `Endpoint._handle_notification(method, params)`: route the reserved
cancel method to `_handle_cancel_notification(params['id'])`; otherwise
look the method up in the dispatcher (unknown → log and return), invoke
the handler (raise → log and return), and if the result is callable submit
it to the executor with `_notification_callback` attached. -/
def handleNotification (d : Dispatcher) (s : EndpointState) (method : String)
    (params : Option Value) : EndpointState × Option PyExc :=
  if method = CANCEL_METHOD then
    match paramsId params with
    | .error e => (s, some e)
    | .ok mid => (handleCancelNotification s mid, none)
  else
    match d method with
    | none => (s, none)
    | some handler =>
      match handler params with
      | .raises _ => (s, none)
      | .value _ => (s, none)
      | .deferred work =>
          let fid := s.nextFut
          let fut : Future := { state := .pending, cb := .notificationCb, notified := false }
          ({ s with
              futures := s.futures ++ [(fid, fut)]
              nextFut := s.nextFut + 1
              tasks := s.tasks ++ [⟨fid, work, .queued⟩] }, none)

/-- `Endpoint._handle_request(msg_id, method, params)`: unknown method
raises `JsonRpcMethodNotFound.of(method)`; a handler raise propagates; a
callable result is submitted to the executor, recorded in
`_client_request_futures[msg_id]`, and gets `_request_callback(msg_id)`
attached; otherwise the immediate result is sent as a success response. -/
def handleRequest (d : Dispatcher) (s : EndpointState) (msgId : RpcId)
    (method : String) (params : Option Value) : Except PyExc EndpointState :=
  match d method with
  | none => .error (.jsonRpc (methodNotFoundError method))
  | some handler =>
    match handler params with
    | .raises e => .error e
    | .value v => .ok (emit s (successMsg msgId v))
    | .deferred work =>
        let fid := s.nextFut
        let fut : Future := { state := .pending, cb := .requestCb msgId, notified := false }
        .ok { s with
                futures := s.futures ++ [(fid, fut)]
                nextFut := s.nextFut + 1
                clientReqFutures := ainsert s.clientReqFutures msgId fid
                tasks := s.tasks ++ [⟨fid, work, .queued⟩] }

/-- `Endpoint._handle_response(msg_id, result, error)`: pop the id from
`_server_request_futures` (absent → log and return); if `error is not
None`, `set_exception` with the decoded error; then — with no early
return in the source — unconditionally `set_result(result)`. -/
def handleResponse (s : EndpointState) (msgId : RpcId)
    (result error : Option Value) : EndpointState :=
  match alookup s.serverReqFutures msgId with
  | none => s
  | some fid =>
    let s1 := { s with serverReqFutures := aerase s.serverReqFutures msgId }
    let s2 := match error with
      | some errv => futSetException s1 fid (.jsonRpc (RpcError.fromDict errv))
      | none => s1
    futSetResult s2 fid result

/-- `Endpoint.consume(message)`: drop any message whose `jsonrpc` field is
missing or differs from `JSONRPC_VERSION`; a message with no `id` is a
notification (note `message['method']` raises `KeyError` when absent);
with an `id` but no `method` it is a response; otherwise it is a request,
with `JsonRpcException` converted to an error response carrying the
exception's dict and any other exception wrapped as `InternalError`.
Returns the new state and the exception `consume` itself raises, if any. -/
def consume (d : Dispatcher) (s : EndpointState) (message : Msg) :
    EndpointState × Option PyExc :=
  if message.jsonrpc ≠ some JSONRPC_VERSION then (s, none)
  else
    match message.id with
    | none =>
      match message.method with
      | none => (s, some (.keyError "method"))
      | some m => handleNotification d s m (pyGet message.params)
    | some msgId =>
      match message.method with
      | none =>
          (handleResponse s msgId (pyGet message.result) (pyGet message.error), none)
      | some m =>
        match handleRequest d s msgId m (pyGet message.params) with
        | .ok s' => (s', none)
        | .error (.jsonRpc e) => (emit s (errorMsg msgId e), none)
        | .error _ => (emit s (errorMsg msgId (internalError "unhandled exception")), none)

/-- A pool worker picks up the task submitted for future `fid`.  The pool
first calls `future.set_running_or_notify_cancel()`: only a still-pending
future lets the deferred work execute (then its outcome is recorded with
`set_result`/`set_exception`, firing the done-callback); a task whose
future was cancelled is skipped without running. -/
def runTask (s : EndpointState) (fid : Nat) : EndpointState :=
  match s.tasks.find? (fun t => t.fid == fid) with
  | none => s
  | some t =>
    if t.status ≠ .queued then s
    else
      match alookup s.futures fid with
      | none => s
      | some fut =>
        match fut.state with
        | .pending =>
            let s1 := setTaskStatus s fid .ran
            fireDone (setFutState s1 fid (.finished t.work)) fid
        | _ => setTaskStatus s fid .skipped

/-! ## The concurrent step relation

Any interleaving of the endpoint's entry points: the router consuming a
message, the local side sending a notification or request or cancelling a
returned handle, and a pool worker picking up a submitted task. -/

/-- One step of the endpoint system. -/
inductive Step (d : Dispatcher) : EndpointState → EndpointState → Prop where
  | consume (s : EndpointState) (msg : Msg) : Step d s (consume d s msg).1
  | notify (s : EndpointState) (method : String) (params : Option Value) :
      Step d s (notify s method params)
  | request (s : EndpointState) (msgId : RpcId) (method : String)
      (params : Option Value) : Step d s (request s msgId method params).1
  | cancelHandle (s : EndpointState) (fid : Nat) : Step d s (cancelHandle s fid)
  | runTask (s : EndpointState) (fid : Nat) : Step d s (runTask s fid)

/-- Any number of steps. -/
def Steps (d : Dispatcher) : EndpointState → EndpointState → Prop :=
  Relation.ReflTransGen (Step d)

/-- Future-store keys and task keys are always below the allocation
counter; holds of `initState` and is preserved by every step. -/
def FreshFids (s : EndpointState) : Prop :=
  (∀ p ∈ s.futures, p.1 < s.nextFut) ∧ (∀ t ∈ s.tasks, t.fid < s.nextFut)

/-! ## Association-list lemmas -/

theorem alookup_append {α β : Type} [DecidableEq α] (l₁ l₂ : List (α × β)) (k : α) :
    alookup (l₁ ++ l₂) k = ((alookup l₁ k).rec (alookup l₂ k) fun v => some v) := by
  induction l₁ with
  | nil => rfl
  | cons p rest ih =>
      obtain ⟨k₀, v₀⟩ := p
      by_cases h : k₀ = k <;> simp [alookup, h, ih]

theorem alookup_append_left {α β : Type} [DecidableEq α] {l₁ : List (α × β)}
    (l₂ : List (α × β)) {k : α} {v : β} (h : alookup l₁ k = some v) :
    alookup (l₁ ++ l₂) k = some v := by
  rw [alookup_append, h]

theorem alookup_append_right {α β : Type} [DecidableEq α] {l₁ : List (α × β)}
    (l₂ : List (α × β)) {k : α} (h : alookup l₁ k = none) :
    alookup (l₁ ++ l₂) k = alookup l₂ k := by
  rw [alookup_append, h]

theorem alookup_aerase_self {α β : Type} [DecidableEq α] (l : List (α × β)) (k : α) :
    alookup (aerase l k) k = none := by
  induction l with
  | nil => rfl
  | cons p rest ih =>
      obtain ⟨k₀, v₀⟩ := p
      by_cases h : k₀ = k <;> simp [aerase, alookup, h, ih]

theorem alookup_aerase_ne {α β : Type} [DecidableEq α] (l : List (α × β))
    {k k' : α} (h : k' ≠ k) : alookup (aerase l k') k = alookup l k := by
  induction l with
  | nil => rfl
  | cons p rest ih =>
      obtain ⟨k₀, v₀⟩ := p
      by_cases h₀ : k₀ = k'
      · subst h₀
        simp [aerase, alookup, h, ih]
      · simp only [aerase, if_neg h₀, alookup, ih]

theorem alookup_ainsert_self {α β : Type} [DecidableEq α] (l : List (α × β))
    (k : α) (v : β) : alookup (ainsert l k v) k = some v := by
  rw [ainsert, alookup_append_right _ (alookup_aerase_self l k)]
  simp [alookup]

theorem alookup_ainsert_ne {α β : Type} [DecidableEq α] (l : List (α × β))
    {k k' : α} (v : β) (h : k' ≠ k) :
    alookup (ainsert l k' v) k = alookup l k := by
  rw [ainsert, alookup_append, alookup_aerase_ne l h]
  cases hx : alookup l k <;> simp [alookup, if_neg h]

theorem alookup_no_key {α β : Type} [DecidableEq α] {l : List (α × β)} {k : α}
    (h : ∀ p ∈ l, p.1 ≠ k) : alookup l k = none := by
  induction l with
  | nil => rfl
  | cons p rest ih =>
      obtain ⟨k₀, v₀⟩ := p
      have hk := h (k₀, v₀) (List.mem_cons_self _ _)
      simp only [alookup, if_neg hk]
      exact ih fun q hq => h q (List.mem_cons_of_mem _ hq)

theorem alookup_aupdate_self {α β : Type} [DecidableEq α] (l : List (α × β))
    (k : α) (f : β → β) :
    alookup (aupdate l k f) k = (alookup l k).map f := by
  induction l with
  | nil => rfl
  | cons p rest ih =>
      obtain ⟨k₀, v₀⟩ := p
      by_cases h : k₀ = k
      · simp [aupdate, if_pos h, alookup, ih]
      · simp only [aupdate, if_neg h, alookup, ih]

theorem alookup_aupdate_ne {α β : Type} [DecidableEq α] (l : List (α × β))
    {k k' : α} (f : β → β) (h : k' ≠ k) :
    alookup (aupdate l k' f) k = alookup l k := by
  induction l with
  | nil => rfl
  | cons p rest ih =>
      obtain ⟨k₀, v₀⟩ := p
      by_cases h₀ : k₀ = k'
      · subst h₀
        simp only [aupdate, if_pos rfl, alookup, if_neg h, ih]
      · simp only [aupdate, if_neg h₀, alookup, ih]

/-! ## Invariant machinery: a settled future stays settled and its task
never runs -/

/-- The future stored under `fid` exists and is done (cancelled or
finished). -/
def DoneAtL (l : List (Nat × Future)) (fid : Nat) : Prop :=
  ∃ fut, alookup l fid = some fut ∧ fut.state.isDone = true

/-- No submitted task for future `fid` has ever executed its work. -/
def NeverRan (s : EndpointState) (fid : Nat) : Prop :=
  ∀ t ∈ s.tasks, t.fid = fid → t.status ≠ .ran

/-- The preserved property: `fid` is an already-allocated future key, its
future is done, and its work has not run. -/
def Inv (fid : Nat) (s : EndpointState) : Prop :=
  fid < s.nextFut ∧ DoneAtL s.futures fid ∧ NeverRan s fid

theorem DoneAtL_aupdate_stateTo {l : List (Nat × Future)} {fid : Nat} (k : Nat)
    {st : FutState} (hst : st.isDone = true) (h : DoneAtL l fid) :
    DoneAtL (aupdate l k (stateTo st)) fid := by
  obtain ⟨fut, hl, hd⟩ := h
  by_cases hk : k = fid
  · subst hk
    rw [DoneAtL, alookup_aupdate_self, hl]
    exact ⟨stateTo st fut, rfl, hst⟩
  · rw [DoneAtL, alookup_aupdate_ne _ _ hk]
    exact ⟨fut, hl, hd⟩

theorem DoneAtL_aupdate_noteDone {l : List (Nat × Future)} {fid : Nat} (k : Nat)
    (h : DoneAtL l fid) : DoneAtL (aupdate l k noteDone) fid := by
  obtain ⟨fut, hl, hd⟩ := h
  by_cases hk : k = fid
  · subst hk
    rw [DoneAtL, alookup_aupdate_self, hl]
    exact ⟨noteDone fut, rfl, hd⟩
  · rw [DoneAtL, alookup_aupdate_ne _ _ hk]
    exact ⟨fut, hl, hd⟩

theorem DoneAtL_append {l : List (Nat × Future)} {fid : Nat}
    (l₂ : List (Nat × Future)) (h : DoneAtL l fid) : DoneAtL (l ++ l₂) fid := by
  obtain ⟨fut, hl, hd⟩ := h
  exact ⟨fut, alookup_append_left l₂ hl, hd⟩

theorem inv_setFutState_done {fid : Nat} {s : EndpointState} (k : Nat)
    {st : FutState} (hst : st.isDone = true) (h : Inv fid s) :
    Inv fid (setFutState s k st) :=
  ⟨h.1, DoneAtL_aupdate_stateTo k hst h.2.1, h.2.2⟩

theorem inv_setFutState_cancelled {fid : Nat} {s : EndpointState} (k : Nat)
    (h : Inv fid s) : Inv fid (setFutState s k .cancelled) :=
  inv_setFutState_done k rfl h

theorem inv_setFutState_finished {fid : Nat} {s : EndpointState} (k : Nat)
    (o : Except PyExc (Option Value)) (h : Inv fid s) :
    Inv fid (setFutState s k (.finished o)) :=
  inv_setFutState_done k rfl h

theorem neverRan_setTaskStatus_notRan {fid : Nat} {s : EndpointState} (k : Nat)
    (st : TaskStatus) (hst : st ≠ .ran) (h : NeverRan s fid) :
    NeverRan (setTaskStatus s k st) fid := by
  intro t ht hfid
  simp only [setTaskStatus, List.mem_map] at ht
  obtain ⟨t₀, ht₀, hmap⟩ := ht
  by_cases ht₀k : t₀.fid = k
  · rw [if_pos ht₀k] at hmap
    subst hmap
    exact hst
  · rw [if_neg ht₀k] at hmap
    exact h t (hmap ▸ ht₀) hfid

theorem neverRan_setTaskStatus_ne {fid : Nat} {s : EndpointState} {k : Nat}
    (st : TaskStatus) (hk : k ≠ fid) (h : NeverRan s fid) :
    NeverRan (setTaskStatus s k st) fid := by
  intro t ht hfid
  simp only [setTaskStatus, List.mem_map] at ht
  obtain ⟨t₀, ht₀, hmap⟩ := ht
  by_cases ht₀k : t₀.fid = k
  · rw [if_pos ht₀k] at hmap
    have htk : t.fid = k := by rw [← hmap]; exact ht₀k
    have hkf : k = fid := by rw [← htk]; exact hfid
    exact absurd hkf hk
  · rw [if_neg ht₀k] at hmap
    exact h t (hmap ▸ ht₀) hfid

theorem inv_markNotified {fid : Nat} {s : EndpointState} (k : Nat) (h : Inv fid s) :
    Inv fid (markNotified s k) :=
  ⟨h.1, DoneAtL_aupdate_noteDone k h.2.1, h.2.2⟩

theorem inv_runCallback {fid : Nat} (s : EndpointState) (k : Nat) (h : Inv fid s) :
    Inv fid (runCallback s k) := by
  unfold runCallback
  split
  · exact h
  · split
    · exact h
    · exact h
    · split
      · exact inv_setFutState_finished k _ h
      · exact h
    · split
      · exact inv_setFutState_finished k _ h
      · split
        · exact h
        · exact h

theorem inv_fireDone {fid : Nat} (s : EndpointState) (k : Nat) (h : Inv fid s) :
    Inv fid (fireDone s k) := by
  unfold fireDone
  split
  · exact h
  · split
    · exact h
    · exact inv_runCallback _ k (inv_markNotified k h)

theorem inv_futCancel {fid : Nat} (s : EndpointState) (k : Nat) (h : Inv fid s) :
    Inv fid (futCancel s k).1 := by
  unfold futCancel
  split
  · exact h
  · split
    · exact inv_fireDone _ k (inv_setFutState_cancelled k h)
    · exact h
    · exact h

theorem inv_futSetResult {fid : Nat} (s : EndpointState) (k : Nat) (v : Option Value)
    (h : Inv fid s) : Inv fid (futSetResult s k v) :=
  inv_fireDone _ k (inv_setFutState_finished k _ h)

theorem inv_futSetException {fid : Nat} (s : EndpointState) (k : Nat) (e : PyExc)
    (h : Inv fid s) : Inv fid (futSetException s k e) :=
  inv_fireDone _ k (inv_setFutState_finished k _ h)

theorem inv_handleCancelNotification {fid : Nat} (s : EndpointState) (i : RpcId)
    (h : Inv fid s) : Inv fid (handleCancelNotification s i) := by
  unfold handleCancelNotification
  split
  · exact h
  · exact inv_futCancel _ _ h

/-- Allocating a fresh future (and optionally a fresh task) preserves the
invariant for an already-allocated key. -/
theorem inv_submit {fid : Nat} {s : EndpointState} (fut : Future)
    (ts : List Task) (hts : ∀ t ∈ ts, t.fid = s.nextFut) (h : Inv fid s) :
    Inv fid { s with
                futures := s.futures ++ [(s.nextFut, fut)]
                nextFut := s.nextFut + 1
                tasks := s.tasks ++ ts } := by
  refine ⟨Nat.lt_succ_of_lt h.1, DoneAtL_append _ h.2.1, ?_⟩
  intro t ht hfid
  rcases List.mem_append.mp ht with hmem | hmem
  · exact h.2.2 t hmem hfid
  · have heq : fid = s.nextFut := by rw [← hfid]; exact hts t hmem
    exact absurd heq (Nat.ne_of_lt h.1)

theorem inv_handleNotification {fid : Nat} (d : Dispatcher) (s : EndpointState)
    (m : String) (p : Option Value) (h : Inv fid s) :
    Inv fid (handleNotification d s m p).1 := by
  unfold handleNotification
  split
  · split
    · exact h
    · exact inv_handleCancelNotification _ _ h
  · split
    · exact h
    · split
      · exact h
      · exact h
      · refine inv_submit _ _ ?_ h
        intro t ht
        rw [List.mem_singleton] at ht
        subst ht
        rfl

theorem inv_handleRequest {fid : Nat} (d : Dispatcher) (s s' : EndpointState)
    (i : RpcId) (m : String) (p : Option Value)
    (hok : handleRequest d s i m p = .ok s') (h : Inv fid s) : Inv fid s' := by
  unfold handleRequest at hok
  split at hok
  · cases hok
  · split at hok
    · cases hok
    · cases hok
      exact h
    · cases hok
      have h1 : Inv fid { s with clientReqFutures := ainsert s.clientReqFutures i s.nextFut } := h
      refine inv_submit _ _ ?_ h1
      intro t ht
      rw [List.mem_singleton] at ht
      subst ht
      rfl

theorem inv_handleResponse {fid : Nat} (s : EndpointState) (i : RpcId)
    (r e : Option Value) (h : Inv fid s) : Inv fid (handleResponse s i r e) := by
  unfold handleResponse
  split
  · exact h
  · split
    · exact inv_futSetResult _ _ _ (inv_futSetException _ _ _ h)
    · exact inv_futSetResult _ _ _ h

theorem inv_consume {fid : Nat} (d : Dispatcher) (s : EndpointState) (msg : Msg)
    (h : Inv fid s) : Inv fid (consume d s msg).1 := by
  unfold consume
  split
  · exact h
  · split
    · split
      · exact h
      · exact inv_handleNotification d s _ _ h
    · split
      · exact inv_handleResponse _ _ _ _ h
      · split
        · rename_i s' hok
          exact inv_handleRequest d s s' _ _ _ hok h
        · exact h
        · exact h

theorem inv_request {fid : Nat} (s : EndpointState) (i : RpcId) (m : String)
    (p : Option Value) (h : Inv fid s) : Inv fid (request s i m p).1 := by
  have h1 : Inv fid { s with
      futures := s.futures ++ [(s.nextFut, ⟨.pending, .cancelCb i, false⟩)]
      nextFut := s.nextFut + 1
      tasks := s.tasks ++ [] } :=
    inv_submit _ [] (by intro t ht; cases ht) h
  simp only [List.append_nil] at h1
  exact h1

theorem inv_runTask {fid : Nat} (s : EndpointState) (k : Nat) (h : Inv fid s) :
    Inv fid (runTask s k) := by
  unfold runTask
  cases hfind : s.tasks.find? (fun t => t.fid == k) with
  | none => exact h
  | some t =>
    dsimp only
    by_cases hq : t.status ≠ TaskStatus.queued
    · rw [if_pos hq]
      exact h
    · rw [if_neg hq]
      cases hfut : alookup s.futures k with
      | none => exact h
      | some fut =>
        dsimp only
        cases hst : fut.state with
        | pending =>
            by_cases hk : k = fid
            · subst hk
              obtain ⟨fut', hl, hd⟩ := h.2.1
              rw [hfut] at hl
              cases hl
              rw [hst] at hd
              cases hd
            · exact inv_fireDone _ k (inv_setFutState_finished k _
                ⟨h.1, h.2.1, neverRan_setTaskStatus_ne TaskStatus.ran hk h.2.2⟩)
        | cancelled =>
            exact ⟨h.1, h.2.1, neverRan_setTaskStatus_notRan k TaskStatus.skipped (by decide) h.2.2⟩
        | finished o =>
            exact ⟨h.1, h.2.1, neverRan_setTaskStatus_notRan k TaskStatus.skipped (by decide) h.2.2⟩

/-- The invariant is preserved by every step of the endpoint system. -/
theorem inv_step {fid : Nat} {d : Dispatcher} {s s' : EndpointState}
    (hstep : Step d s s') (h : Inv fid s) : Inv fid s' := by
  cases hstep with
  | consume msg => exact inv_consume d s msg h
  | notify m p => exact h
  | request i m p => exact inv_request s i m p h
  | cancelHandle k => exact inv_futCancel s k h
  | runTask k => exact inv_runTask s k h

/-- The invariant is preserved by any number of steps. -/
theorem inv_steps {fid : Nat} {d : Dispatcher} {s s' : EndpointState}
    (hsteps : Steps d s s') (h : Inv fid s) : Inv fid s' := by
  induction hsteps with
  | refl => exact h
  | tail _ hstep ih => exact inv_step hstep ih

/-! ## Frame lemmas for the correlation tables -/

theorem alookup_aerase_of_none {α β : Type} [DecidableEq α] {l : List (α × β)}
    {k : α} (h : alookup l k = none) (k' : α) : alookup (aerase l k') k = none := by
  by_cases hk : k' = k
  · subst hk
    exact alookup_aerase_self l k'
  · rw [alookup_aerase_ne l hk]
    exact h

/-- The done-callbacks never touch the server-request table. -/
theorem runCallback_server (s : EndpointState) (k : Nat) :
    (runCallback s k).serverReqFutures = s.serverReqFutures := by
  unfold runCallback
  split
  · rfl
  · split
    · rfl
    · rfl
    · split <;> rfl
    · split
      · rfl
      · split <;> rfl

theorem fireDone_server (s : EndpointState) (k : Nat) :
    (fireDone s k).serverReqFutures = s.serverReqFutures := by
  unfold fireDone
  split
  · rfl
  · split
    · rfl
    · rw [runCallback_server]
      rfl

theorem futCancel_server (s : EndpointState) (k : Nat) :
    (futCancel s k).1.serverReqFutures = s.serverReqFutures := by
  unfold futCancel
  split
  · rfl
  · split
    · rw [fireDone_server]
      rfl
    · rfl
    · rfl

theorem futSetResult_server (s : EndpointState) (k : Nat) (v : Option Value) :
    (futSetResult s k v).serverReqFutures = s.serverReqFutures := by
  rw [futSetResult, fireDone_server]
  rfl

theorem futSetException_server (s : EndpointState) (k : Nat) (e : PyExc) :
    (futSetException s k e).serverReqFutures = s.serverReqFutures := by
  rw [futSetException, fireDone_server]
  rfl

/-- The done-callbacks only ever remove client-request-table entries. -/
theorem runCallback_client_none (s : EndpointState) (k : Nat) {i : RpcId}
    (h : alookup s.clientReqFutures i = none) :
    alookup (runCallback s k).clientReqFutures i = none := by
  unfold runCallback
  split
  · exact h
  · split
    · exact h
    · exact h
    · split <;> exact h
    · split
      · exact alookup_aerase_of_none h _
      · split <;> exact alookup_aerase_of_none h _

theorem fireDone_client_none (s : EndpointState) (k : Nat) {i : RpcId}
    (h : alookup s.clientReqFutures i = none) :
    alookup (fireDone s k).clientReqFutures i = none := by
  unfold fireDone
  split
  · exact h
  · split
    · exact h
    · exact runCallback_client_none _ k h

theorem futCancel_client_none (s : EndpointState) (k : Nat) {i : RpcId}
    (h : alookup s.clientReqFutures i = none) :
    alookup (futCancel s k).1.clientReqFutures i = none := by
  unfold futCancel
  split
  · exact h
  · split
    · exact fireDone_client_none _ k h
    · exact h
    · exact h

/-- Running the `_request_callback(i)` attached to a future removes `i`
from the client-request table, whatever else it does. -/
theorem runCallback_requestCb_client (s : EndpointState) (k : Nat) (i : RpcId)
    (fut : Future) (hfut : alookup s.futures k = some fut)
    (hcb : fut.cb = .requestCb i) :
    alookup (runCallback s k).clientReqFutures i = none := by
  unfold runCallback
  rw [hfut]
  dsimp only
  rw [hcb]
  dsimp only
  split
  · exact alookup_aerase_self _ _
  · split <;> exact alookup_aerase_self _ _

/-- Cancelling a still-pending future that carries `_request_callback(i)`:
the fired callback removes `i` from the client-request table, converts the
cancellation into a `RequestCancelled` failure, and sends exactly one
error response for `i`. -/
theorem futCancel_pending_requestCb (s : EndpointState) (fid : Nat) (i : RpcId)
    (hfut : alookup s.futures fid = some ⟨.pending, .requestCb i, false⟩) :
    futCancel s fid
      = ({ s with
            clientReqFutures := aerase s.clientReqFutures i
            futures := aupdate (aupdate (aupdate s.futures fid (stateTo .cancelled))
              fid noteDone) fid
              (stateTo (.finished (.error (.jsonRpc requestCancelledError))))
            out := s.out ++ [errorMsg i requestCancelledError] },
         true) := by
  have h1 : alookup (aupdate s.futures fid (stateTo .cancelled)) fid
      = some ⟨.cancelled, .requestCb i, false⟩ := by
    rw [alookup_aupdate_self, hfut]; rfl
  have h2 : alookup
      (aupdate (aupdate s.futures fid (stateTo .cancelled)) fid noteDone) fid
      = some ⟨.cancelled, .requestCb i, true⟩ := by
    rw [alookup_aupdate_self, h1]; rfl
  simp [futCancel, hfut, fireDone, setFutState, markNotified, runCallback, h1, h2,
    FutState.isCancelled, emit, callbackMsg]

/-- Settling a deferred client request on a pool worker removes its id
from the client-request table. -/
theorem runTask_settle_removes_client_entry (s : EndpointState) (fid : Nat)
    (i : RpcId) (w : Except PyExc (Option Value))
    (hfind : s.tasks.find? (fun t => t.fid == fid) = some ⟨fid, w, .queued⟩)
    (hfut : alookup s.futures fid = some ⟨.pending, .requestCb i, false⟩) :
    alookup (runTask s fid).clientReqFutures i = none := by
  unfold runTask
  rw [hfind]
  dsimp only
  rw [if_neg (by simp)]
  rw [hfut]
  dsimp only
  have hfut1 : alookup (setFutState (setTaskStatus s fid .ran) fid
      (.finished w)).futures fid
      = some ⟨.finished w, .requestCb i, false⟩ := by
    rw [setFutState, alookup_aupdate_self]
    rw [show (setTaskStatus s fid .ran).futures = s.futures from rfl, hfut]
    rfl
  rw [fireDone, hfut1]
  dsimp only
  have hfut2 : alookup (markNotified (setFutState (setTaskStatus s fid .ran) fid
      (.finished w)) fid).futures fid
      = some ⟨.finished w, .requestCb i, true⟩ := by
    rw [markNotified, alookup_aupdate_self, hfut1]
    rfl
  exact runCallback_requestCb_client _ fid i _ hfut2 rfl

/-! ## Concrete fixtures for witnesses -/

/-- A dispatcher with one method, `"echo"`, whose handler returns its
params unchanged (an immediate, non-callable result). -/
def echoDispatcher : Dispatcher :=
  fun m => if m = "echo" then some (fun p => .value p) else none

/-- A dispatcher with one method, `"boom"`, whose handler raises. -/
def raisingDispatcher : Dispatcher :=
  fun m => if m = "boom" then some (fun _ => .raises (.other "boom")) else none

/-- A dispatcher with one method, `"slow"`, whose handler returns a
callable (deferred work that would produce the string `"done"`). -/
def deferDispatcher : Dispatcher :=
  fun m => if m = "slow" then some (fun _ => .deferred (.ok (some (.str "done")))) else none

/-- Request `{jsonrpc: "2.0", id: 1, method: "echo", params: {x: 5}}`. -/
def echoRequestMsg : Msg :=
  { Msg.empty with
      jsonrpc := some JSONRPC_VERSION
      id := some (.num 1)
      method := some "echo"
      params := some (.obj [("x", .num 5)]) }

/-- Request `{jsonrpc: "2.0", id: 3, method: "nope"}` (unregistered). -/
def unknownRequestMsg : Msg :=
  { Msg.empty with
      jsonrpc := some JSONRPC_VERSION
      id := some (.num 3)
      method := some "nope" }

/-- Notification `{jsonrpc: "2.0", method: "nope"}` (unregistered). -/
def unknownNotificationMsg : Msg :=
  { Msg.empty with
      jsonrpc := some JSONRPC_VERSION
      method := some "nope" }

/-- Notification `{jsonrpc: "2.0", method: "boom"}` (raising handler). -/
def boomNotificationMsg : Msg :=
  { Msg.empty with
      jsonrpc := some JSONRPC_VERSION
      method := some "boom" }

/-- Deferred request `{jsonrpc: "2.0", id: 7, method: "slow"}`. -/
def slowRequestMsg : Msg :=
  { Msg.empty with
      jsonrpc := some JSONRPC_VERSION
      id := some (.num 7)
      method := some "slow" }

/-- The inbound cancel notification for request id `i`:
`{jsonrpc: "2.0", method: "$/cancelRequest", params: {id: i}}`. -/
def cancelNotificationMsg (i : RpcId) : Msg :=
  { Msg.empty with
      jsonrpc := some JSONRPC_VERSION
      method := some CANCEL_METHOD
      params := some (.obj [("id", idToValue i)]) }

/-! ## Claim theorems -/

/-- C5: a Request whose registered handler returns an immediate
(non-callable) result makes `consume` hand the consumer exactly one
success response `{jsonrpc, id, result}` with the request's id before
returning, creates no client-request-table entry, and changes no other
endpoint state. -/
theorem consume_immediate_request (d : Dispatcher) (s : EndpointState) (msg : Msg)
    (i : RpcId) (m : String) (h : Option Value → HandlerResult) (v : Option Value)
    (hver : msg.jsonrpc = some JSONRPC_VERSION) (hid : msg.id = some i)
    (hm : msg.method = some m) (hd : d m = some h)
    (hh : h (pyGet msg.params) = .value v) :
    consume d s msg = ({ s with out := s.out ++ [successMsg i v] }, none) := by
  simp [consume, hver, hid, hm, handleRequest, hd, hh, emit]

/-- C5 witness: the `"echo"` scenario, `{id: 1, method: "echo",
params: {x: 5}}` answered by exactly `{id: 1, result: {x: 5}}`. -/
theorem consume_immediate_request_witness :
    consume echoDispatcher initState echoRequestMsg
      = ({ initState with
            out := [successMsg (.num 1) (some (.obj [("x", .num 5)]))] }, none) :=
  consume_immediate_request echoDispatcher initState echoRequestMsg (.num 1) "echo"
    (fun p => .value p) (some (.obj [("x", .num 5)])) rfl rfl rfl rfl rfl

/-- C6: a Request naming a method absent from the dispatcher makes
`consume` hand the consumer exactly one error response with a
`MethodNotFound` error object and the request's id, and leaves every
other part of the endpoint state — both correlation tables included —
unchanged. -/
theorem consume_unknown_method_request (d : Dispatcher) (s : EndpointState)
    (msg : Msg) (i : RpcId) (m : String)
    (hver : msg.jsonrpc = some JSONRPC_VERSION) (hid : msg.id = some i)
    (hm : msg.method = some m) (hd : d m = none) :
    consume d s msg
      = ({ s with out := s.out ++ [errorMsg i (methodNotFoundError m)] }, none) := by
  simp [consume, hver, hid, hm, handleRequest, hd, emit]

/-- C6 witness: `{id: 3, method: "nope"}` against the echo dispatcher. -/
theorem consume_unknown_method_request_witness :
    consume echoDispatcher initState unknownRequestMsg
      = ({ initState with out := [errorMsg (.num 3) (methodNotFoundError "nope")] }, none) :=
  consume_unknown_method_request echoDispatcher initState unknownRequestMsg
    (.num 3) "nope" rfl rfl rfl rfl

/-- C7: a message whose `jsonrpc` field is missing or differs from the
protocol version string is dropped before classification: `consume`
returns the state unchanged (so nothing was sent and neither correlation
table changed), even when the message carries an id and a method. -/
theorem consume_version_mismatch (d : Dispatcher) (s : EndpointState) (msg : Msg)
    (hver : msg.jsonrpc ≠ some JSONRPC_VERSION) :
    consume d s msg = (s, none) := by
  simp [consume, hver]

/-- C7 witness: the echo request with its version replaced by `"1.0"`
produces no output and no state change despite having id and method. -/
theorem consume_version_mismatch_witness :
    consume echoDispatcher initState { echoRequestMsg with jsonrpc := some "1.0" }
      = (initState, none) :=
  consume_version_mismatch echoDispatcher initState _ (by simp [JSONRPC_VERSION])

/-- C8: a Notification naming an unregistered method (other than the
reserved cancel method) makes `consume` produce no outgoing message and
raise nothing; the same holds when the registered handler's invocation
raises. -/
theorem consume_notification_silent (d : Dispatcher) (s : EndpointState)
    (msg : Msg) (m : String)
    (hver : msg.jsonrpc = some JSONRPC_VERSION) (hid : msg.id = none)
    (hm : msg.method = some m) (hcm : m ≠ CANCEL_METHOD) :
    (d m = none → consume d s msg = (s, none)) ∧
    (∀ h e, d m = some h → h (pyGet msg.params) = .raises e →
      consume d s msg = (s, none)) := by
  constructor
  · intro hd
    simp [consume, hver, hid, hm, handleNotification, hcm, hd]
  · intro h e hd hh
    simp [consume, hver, hid, hm, handleNotification, hcm, hd, hh]

/-- C8 witness: an unregistered notification against the echo dispatcher,
and a raising-handler notification against the raising dispatcher; both
leave the endpoint untouched and raise nothing. -/
theorem consume_notification_silent_witness :
    consume echoDispatcher initState unknownNotificationMsg = (initState, none) ∧
    consume raisingDispatcher initState boomNotificationMsg = (initState, none) :=
  ⟨(consume_notification_silent echoDispatcher initState unknownNotificationMsg
      "nope" rfl rfl rfl (by decide)).1 rfl,
   (consume_notification_silent raisingDispatcher initState boomNotificationMsg
      "boom" rfl rfl rfl (by decide)).2 (fun _ => .raises (.other "boom"))
      (.other "boom") rfl rfl⟩

/-- Settling a still-pending server-request future (one carrying
`_cancel_callback`) with a result: the state is recorded and the fired
`_cancel_callback` observes a non-cancelled future, so it does nothing. -/
theorem futSetResult_pending_cancelCb (s : EndpointState) (fid : Nat) (i : RpcId)
    (r : Option Value)
    (hfut : alookup s.futures fid = some ⟨.pending, .cancelCb i, false⟩) :
    futSetResult s fid r
      = { s with futures :=
            aupdate (aupdate s.futures fid (stateTo (.finished (.ok r)))) fid noteDone } := by
  have h1 : alookup (aupdate s.futures fid (stateTo (.finished (.ok r)))) fid
      = some ⟨.finished (.ok r), .cancelCb i, false⟩ := by
    rw [alookup_aupdate_self, hfut]; rfl
  have h2 : alookup
      (aupdate (aupdate s.futures fid (stateTo (.finished (.ok r)))) fid noteDone) fid
      = some ⟨.finished (.ok r), .cancelCb i, true⟩ := by
    rw [alookup_aupdate_self, h1]; rfl
  simp [futSetResult, fireDone, setFutState, markNotified, runCallback, h1, h2,
    FutState.isCancelled]

/-- C9: a Response whose id is absent from the server-request table leaves
the whole endpoint state unchanged and raises nothing; and when the id is
present with a pending handle, the first matching success Response settles
the handle, removes the table entry, emits nothing — and feeding the very
same Response again is then a complete no-op, so the handle is settled
exactly once, by the first matching Response. -/
theorem consume_response_settles_at_most_once (d : Dispatcher) (s : EndpointState)
    (msg : Msg) (i : RpcId)
    (hver : msg.jsonrpc = some JSONRPC_VERSION) (hid : msg.id = some i)
    (hm : msg.method = none) :
    (alookup s.serverReqFutures i = none → consume d s msg = (s, none)) ∧
    (∀ fid, alookup s.serverReqFutures i = some fid →
      alookup s.futures fid = some ⟨.pending, .cancelCb i, false⟩ →
      pyGet msg.error = none →
      (consume d s msg).2 = none ∧
      alookup (consume d s msg).1.serverReqFutures i = none ∧
      alookup (consume d s msg).1.futures fid
        = some ⟨.finished (.ok (pyGet msg.result)), .cancelCb i, true⟩ ∧
      (consume d s msg).1.out = s.out ∧
      consume d (consume d s msg).1 msg = ((consume d s msg).1, none)) := by
  constructor
  · intro htbl
    simp [consume, hver, hid, hm, handleResponse, htbl]
  · intro fid htbl hfut herr
    have hc : consume d s msg
        = (handleResponse s i (pyGet msg.result) (pyGet msg.error), none) := by
      simp [consume, hver, hid, hm]
    have hfut' : alookup
        ({ s with serverReqFutures := aerase s.serverReqFutures i } : EndpointState).futures fid
        = some ⟨.pending, .cancelCb i, false⟩ := hfut
    have hhr : handleResponse s i (pyGet msg.result) (pyGet msg.error)
        = futSetResult { s with serverReqFutures := aerase s.serverReqFutures i }
            fid (pyGet msg.result) := by
      rw [handleResponse, htbl, herr]
    rw [hc, hhr, futSetResult_pending_cancelCb _ _ i _ hfut']
    refine ⟨rfl, ?_, ?_, rfl, ?_⟩
    · exact alookup_aerase_self _ _
    · rw [alookup_aupdate_self, alookup_aupdate_self, hfut]; rfl
    · simp [consume, hver, hid, hm, handleResponse, alookup_aerase_self]

/-- C9 witness: a Response with unknown id 99 is a no-op on the fresh
endpoint; a request with id `"r9"` answered by `{id: "r9", result: 5}`
settles the handle once, and the duplicate Response is ignored. -/
theorem consume_response_settles_at_most_once_witness :
    (consume echoDispatcher initState
        { Msg.empty with
            jsonrpc := some JSONRPC_VERSION
            id := some (.num 99)
            result := some (.num 1) }
      = (initState, none)) ∧
    (let s0 := (request initState (.str "r9") "m" none).1
     let resp : Msg :=
       { Msg.empty with
           jsonrpc := some JSONRPC_VERSION
           id := some (.str "r9")
           result := some (.num 5) }
     alookup (consume echoDispatcher s0 resp).1.futures 0
        = some ⟨.finished (.ok (some (.num 5))), .cancelCb (.str "r9"), true⟩ ∧
     consume echoDispatcher (consume echoDispatcher s0 resp).1 resp
        = ((consume echoDispatcher s0 resp).1, none)) := by
  constructor
  · exact (consume_response_settles_at_most_once echoDispatcher initState _
      (.num 99) rfl rfl rfl).1 rfl
  · have h := (consume_response_settles_at_most_once echoDispatcher
      (request initState (.str "r9") "m" none).1
      { Msg.empty with
          jsonrpc := some JSONRPC_VERSION
          id := some (.str "r9")
          result := some (.num 5) }
      (.str "r9") rfl rfl rfl).2 0 rfl rfl rfl
    exact ⟨h.2.2.1, h.2.2.2.2⟩

/-- The state after sending request `"r1"` (method `"m"`, no params) from
a fresh endpoint: one pending future (store key 0) with
`_cancel_callback("r1")` attached, recorded in the server-request table. -/
def pendingReqState : EndpointState :=
  (request initState (.str "r1") "m" none).1

/-- An error Response for request `"r1"`:
`{jsonrpc: "2.0", id: "r1", error: {code: -32601, message: "nope"}}`. -/
def errorRespMsg : Msg :=
  { Msg.empty with
      jsonrpc := some JSONRPC_VERSION
      id := some (.str "r1")
      error := some (.obj [("code", .num (-32601)), ("message", .str "nope")]) }

/-- C1 (refuted — code bug): an error Response for a pending outgoing
request does NOT leave the handle failed with the decoded error.
`_handle_response` has no `return` after `set_exception`, so it falls
through and also calls `set_result(result)` — here `result` is absent,
i.e. `None` — and the handle ends fulfilled with a null result: both
terminal operations were applied and the fulfilment overwrote the
failure. -/
theorem consume_error_response_fulfils_with_result :
    (consume echoDispatcher pendingReqState errorRespMsg).2 = none ∧
    alookup (consume echoDispatcher pendingReqState errorRespMsg).1.futures 0
      = some ⟨.finished (.ok none), .cancelCb (.str "r1"), true⟩ :=
  ⟨rfl, rfl⟩

/-- Cancelling a still-pending future that carries `_cancel_callback(i)`:
the transition to cancelled fires the callback, which sends the cancel
notification `{method: $/cancelRequest, params: {id: i}}` to the peer and
then settles the future with a `RequestCancelled` failure. -/
theorem futCancel_pending_cancelCb (s : EndpointState) (fid : Nat) (i : RpcId)
    (hfut : alookup s.futures fid = some ⟨.pending, .cancelCb i, false⟩) :
    futCancel s fid
      = ({ s with
            futures := aupdate (aupdate (aupdate s.futures fid (stateTo .cancelled))
              fid noteDone) fid
              (stateTo (.finished (.error (.jsonRpc requestCancelledError))))
            out := s.out ++
              [notifyMsg CANCEL_METHOD (some (.obj [("id", idToValue i)]))] },
         true) := by
  have h1 : alookup (aupdate s.futures fid (stateTo .cancelled)) fid
      = some ⟨.cancelled, .cancelCb i, false⟩ := by
    rw [alookup_aupdate_self, hfut]; rfl
  have h2 : alookup
      (aupdate (aupdate s.futures fid (stateTo .cancelled)) fid noteDone) fid
      = some ⟨.cancelled, .cancelCb i, true⟩ := by
    rw [alookup_aupdate_self, h1]; rfl
  simp [futCancel, hfut, fireDone, setFutState, markNotified, runCallback, h1, h2,
    FutState.isCancelled, emit]

/-- C3: when the local caller cancels the handle returned by `request()`
while it is still pending, a `$/cancelRequest` notification carrying that
request's id is handed to the consumer, and the local handle is settled
with a `RequestCancelled` failure. -/
theorem cancel_request_handle_notifies_peer (s : EndpointState) (i : RpcId)
    (m : String) (p : Option Value)
    (hfresh : ∀ q ∈ s.futures, q.1 < s.nextFut) :
    (cancelHandle (request s i m p).1 (request s i m p).2).out
      = s.out ++ [requestMsg i m p,
          notifyMsg CANCEL_METHOD (some (.obj [("id", idToValue i)]))] ∧
    alookup (cancelHandle (request s i m p).1 (request s i m p).2).futures
        (request s i m p).2
      = some ⟨.finished (.error (.jsonRpc requestCancelledError)), .cancelCb i, true⟩ := by
  have hnone : alookup s.futures s.nextFut = none :=
    alookup_no_key fun q hq => Nat.ne_of_lt (hfresh q hq)
  have hlook : alookup (request s i m p).1.futures (request s i m p).2
      = some ⟨.pending, .cancelCb i, false⟩ := by
    simp only [request, emit]
    rw [alookup_append_right _ hnone]
    simp [alookup]
  rw [cancelHandle, futCancel_pending_cancelCb _ _ i hlook]
  constructor
  · simp [request, emit]
  · rw [alookup_aupdate_self, alookup_aupdate_self, alookup_aupdate_self, hlook]
    rfl

/-- C3 witness: request `"r1"` from the fresh endpoint, then cancel the
returned handle. -/
theorem cancel_request_handle_notifies_peer_witness :
    (cancelHandle (request initState (.str "r1") "m" none).1
        (request initState (.str "r1") "m" none).2).out
      = [requestMsg (.str "r1") "m" none,
         notifyMsg CANCEL_METHOD (some (.obj [("id", .str "r1")]))] ∧
    alookup (cancelHandle (request initState (.str "r1") "m" none).1
        (request initState (.str "r1") "m" none).2).futures
        (request initState (.str "r1") "m" none).2
      = some ⟨.finished (.error (.jsonRpc requestCancelledError)),
              .cancelCb (.str "r1"), true⟩ :=
  cancel_request_handle_notifies_peer initState (.str "r1") "m" none
    (by intro q hq; simp [initState] at hq)

/-- C4 counterexample: after the local caller cancels the handle of
outgoing request `"r1"`, the operation is settled — the handle holds its
terminal `RequestCancelled` failure — yet the id `"r1"` is still present
in the server-request table: `_cancel_callback` never removes it, so the
entry outlives its logical operation, refuting removal "on cancellation
(local caller cancellation)". -/
theorem local_cancel_leaves_server_entry :
    alookup (cancelHandle pendingReqState 0).futures 0
      = some ⟨.finished (.error (.jsonRpc requestCancelledError)),
              .cancelCb (.str "r1"), true⟩ ∧
    alookup (cancelHandle pendingReqState 0).serverReqFutures (.str "r1") = some 0 :=
  ⟨rfl, rfl⟩

/-- Consuming a Request whose handler returns deferred work: a fresh
pending future with `_request_callback` attached is stored under the
request id in the client-request table, the work is queued on the
executor, and nothing is sent yet. -/
theorem consume_deferred_request (d : Dispatcher) (s : EndpointState) (msg : Msg)
    (i : RpcId) (m : String) (h : Option Value → HandlerResult)
    (w : Except PyExc (Option Value))
    (hver : msg.jsonrpc = some JSONRPC_VERSION) (hid : msg.id = some i)
    (hm : msg.method = some m) (hd : d m = some h)
    (hh : h (pyGet msg.params) = .deferred w) :
    consume d s msg
      = ({ s with
            clientReqFutures := ainsert s.clientReqFutures i s.nextFut
            futures := s.futures ++ [(s.nextFut, ⟨.pending, .requestCb i, false⟩)]
            nextFut := s.nextFut + 1
            tasks := s.tasks ++ [⟨s.nextFut, w, .queued⟩] }, none) := by
  simp [consume, hver, hid, hm, handleRequest, hd, hh]

/-- C2: when an inbound cancel notification wins the race against a
deferred Request (the pending client-request future is cancelled before a
worker starts it), the dispatch itself sent nothing, the cancel
notification's consumption delivers exactly one `RequestCancelled` error
Response with the request's id to the consumer, and under any further
steps of the system the deferred work never executes. -/
theorem cancel_notification_wins_race (d : Dispatcher) (s : EndpointState)
    (msg : Msg) (i : RpcId) (m : String) (h : Option Value → HandlerResult)
    (w : Except PyExc (Option Value))
    (hfreshF : ∀ q ∈ s.futures, q.1 < s.nextFut)
    (hfreshT : ∀ t ∈ s.tasks, t.fid < s.nextFut)
    (hver : msg.jsonrpc = some JSONRPC_VERSION) (hid : msg.id = some i)
    (hm : msg.method = some m) (hd : d m = some h)
    (hh : h (pyGet msg.params) = .deferred w) :
    (consume d s msg).1.out = s.out ∧
    (consume d (consume d s msg).1 (cancelNotificationMsg i)).2 = none ∧
    (consume d (consume d s msg).1 (cancelNotificationMsg i)).1.out
      = s.out ++ [errorMsg i requestCancelledError] ∧
    (∀ sN, Steps d (consume d (consume d s msg).1 (cancelNotificationMsg i)).1 sN →
       ∀ t ∈ sN.tasks, t.fid = s.nextFut → t.status ≠ .ran) := by
  have hc1 := consume_deferred_request d s msg i m h w hver hid hm hd hh
  rw [hc1]
  have hpid : paramsId (pyGet (some (Value.obj [("id", idToValue i)]))) = .ok i := by
    cases i <;> rfl
  have hnone : alookup s.futures s.nextFut = none :=
    alookup_no_key fun q hq => Nat.ne_of_lt (hfreshF q hq)
  have hfutS1 : alookup (s.futures ++ [(s.nextFut, (⟨.pending, .requestCb i, false⟩ : Future))]) s.nextFut
      = some ⟨.pending, .requestCb i, false⟩ := by
    rw [alookup_append_right _ hnone]
    simp [alookup]
  have hclient : alookup (ainsert s.clientReqFutures i s.nextFut) i = some s.nextFut :=
    alookup_ainsert_self _ _ _
  have hc2 : consume d
      ({ s with
          clientReqFutures := ainsert s.clientReqFutures i s.nextFut
          futures := s.futures ++ [(s.nextFut, ⟨.pending, .requestCb i, false⟩)]
          nextFut := s.nextFut + 1
          tasks := s.tasks ++ [⟨s.nextFut, w, .queued⟩] } : EndpointState)
      (cancelNotificationMsg i)
      = ({ s with
            clientReqFutures := aerase (aerase (ainsert s.clientReqFutures i s.nextFut) i) i
            futures := aupdate (aupdate (aupdate
                (s.futures ++ [(s.nextFut, ⟨.pending, .requestCb i, false⟩)])
                s.nextFut (stateTo .cancelled)) s.nextFut noteDone) s.nextFut
                (stateTo (.finished (.error (.jsonRpc requestCancelledError))))
            nextFut := s.nextFut + 1
            tasks := s.tasks ++ [⟨s.nextFut, w, .queued⟩]
            out := s.out ++ [errorMsg i requestCancelledError] }, none) := by
    have hstep1 : consume d
        ({ s with
            clientReqFutures := ainsert s.clientReqFutures i s.nextFut
            futures := s.futures ++ [(s.nextFut, ⟨.pending, .requestCb i, false⟩)]
            nextFut := s.nextFut + 1
            tasks := s.tasks ++ [⟨s.nextFut, w, .queued⟩] } : EndpointState)
        (cancelNotificationMsg i)
        = (handleCancelNotification
            { s with
                clientReqFutures := ainsert s.clientReqFutures i s.nextFut
                futures := s.futures ++ [(s.nextFut, ⟨.pending, .requestCb i, false⟩)]
                nextFut := s.nextFut + 1
                tasks := s.tasks ++ [⟨s.nextFut, w, .queued⟩] } i, none) := by
      simp [consume, cancelNotificationMsg, Msg.empty, handleNotification, hpid]
    rw [hstep1, handleCancelNotification]
    rw [show alookup (({ s with
            clientReqFutures := ainsert s.clientReqFutures i s.nextFut
            futures := s.futures ++ [(s.nextFut, ⟨.pending, .requestCb i, false⟩)]
            nextFut := s.nextFut + 1
            tasks := s.tasks ++ [⟨s.nextFut, w, .queued⟩] } : EndpointState)).clientReqFutures i
        = some s.nextFut from hclient]
    dsimp only
    rw [futCancel_pending_requestCb _ s.nextFut i hfutS1]
  rw [hc2]
  refine ⟨rfl, rfl, rfl, ?_⟩
  intro sN hsteps t ht hfid
  have hInv : Inv s.nextFut
      ({ s with
          clientReqFutures := aerase (aerase (ainsert s.clientReqFutures i s.nextFut) i) i
          futures := aupdate (aupdate (aupdate
              (s.futures ++ [(s.nextFut, ⟨.pending, .requestCb i, false⟩)])
              s.nextFut (stateTo .cancelled)) s.nextFut noteDone) s.nextFut
              (stateTo (.finished (.error (.jsonRpc requestCancelledError))))
          nextFut := s.nextFut + 1
          tasks := s.tasks ++ [⟨s.nextFut, w, .queued⟩]
          out := s.out ++ [errorMsg i requestCancelledError] } : EndpointState) := by
    refine ⟨Nat.lt_succ_self _, ?_, ?_⟩
    · refine ⟨⟨.finished (.error (.jsonRpc requestCancelledError)), .requestCb i, true⟩, ?_, rfl⟩
      rw [alookup_aupdate_self, alookup_aupdate_self, alookup_aupdate_self, hfutS1]
      rfl
    · intro t' ht' hfid'
      rcases List.mem_append.mp ht' with hmem | hmem
      · exact absurd hfid' (Nat.ne_of_lt (hfreshT t' hmem))
      · rw [List.mem_singleton] at hmem
        subst hmem
        intro hcontr
        cases hcontr
  exact (inv_steps hsteps hInv).2.2 t ht hfid

/-- C2 witness: the deferred request `{id: 7, method: "slow"}` followed by
its cancel notification, from a fresh endpoint: the dispatch emits
nothing, the cancel consumption emits exactly the `RequestCancelled` error
response for id 7, and no continuation of the system ever runs the
deferred work. -/
theorem cancel_notification_wins_race_witness :
    (consume deferDispatcher initState slowRequestMsg).1.out = initState.out ∧
    (consume deferDispatcher (consume deferDispatcher initState slowRequestMsg).1
        (cancelNotificationMsg (.num 7))).2 = none ∧
    (consume deferDispatcher (consume deferDispatcher initState slowRequestMsg).1
        (cancelNotificationMsg (.num 7))).1.out
      = initState.out ++ [errorMsg (.num 7) requestCancelledError] ∧
    (∀ sN, Steps deferDispatcher
        (consume deferDispatcher (consume deferDispatcher initState slowRequestMsg).1
          (cancelNotificationMsg (.num 7))).1 sN →
       ∀ t ∈ sN.tasks, t.fid = initState.nextFut → t.status ≠ .ran) :=
  cancel_notification_wins_race deferDispatcher initState slowRequestMsg (.num 7)
    "slow" (fun _ => .deferred (.ok (some (.str "done")))) (.ok (some (.str "done")))
    (by intro q hq; exact absurd hq (List.not_mem_nil q))
    (by intro t ht; exact absurd ht (List.not_mem_nil t))
    rfl rfl rfl rfl rfl

/-- C4 amended: client-request-table entries are removed on inbound
cancellation and on settlement of the deferred computation on a worker; a
server-request-table entry is removed by a matching response; but local
caller cancellation removes no table entry — the server-request-table
entry of a locally-cancelled outgoing request persists until a response
with its id arrives, which may never happen. -/
theorem table_entry_lifecycle (s : EndpointState) (i : RpcId) (r e : Option Value) :
    alookup (handleCancelNotification s i).clientReqFutures i = none ∧
    (∀ fid w, s.tasks.find? (fun t => t.fid == fid) = some ⟨fid, w, .queued⟩ →
       alookup s.futures fid = some ⟨.pending, .requestCb i, false⟩ →
       alookup (runTask s fid).clientReqFutures i = none) ∧
    alookup (handleResponse s i r e).serverReqFutures i = none ∧
    (∀ m p, (∀ q ∈ s.futures, q.1 < s.nextFut) →
       alookup (cancelHandle (request s i m p).1 (request s i m p).2).serverReqFutures i
         = some (request s i m p).2) := by
  refine ⟨?_, ?_, ?_, ?_⟩
  · unfold handleCancelNotification
    cases htbl : alookup s.clientReqFutures i with
    | none => exact htbl
    | some fid =>
        dsimp only
        exact futCancel_client_none _ fid (alookup_aerase_self _ _)
  · intro fid w hfind hfut
    exact runTask_settle_removes_client_entry s fid i w hfind hfut
  · unfold handleResponse
    cases htbl : alookup s.serverReqFutures i with
    | none => exact htbl
    | some fid =>
        dsimp only
        cases e with
        | none =>
            dsimp only
            rw [futSetResult_server]
            exact alookup_aerase_self _ _
        | some errv =>
            dsimp only
            rw [futSetResult_server, futSetException_server]
            exact alookup_aerase_self _ _
  · intro m p hfresh
    have hnone : alookup s.futures s.nextFut = none :=
      alookup_no_key fun q hq => Nat.ne_of_lt (hfresh q hq)
    have hlook : alookup (request s i m p).1.futures (request s i m p).2
        = some ⟨.pending, .cancelCb i, false⟩ := by
      simp only [request, emit]
      rw [alookup_append_right _ hnone]
      simp [alookup]
    unfold cancelHandle
    rw [futCancel_pending_cancelCb _ _ i hlook]
    simp only [request, emit]
    exact alookup_ainsert_self _ _ _

/-- C4 witness: the deferred request `{id: 7, method: "slow"}` has its
client-table entry removed both by an inbound cancel and by a worker
settling it; the outgoing request `"r1"` has its server-table entry
removed by a matching response; and after a local cancellation the
server-table entry for `"r1"` is still present. -/
theorem table_entry_lifecycle_witness :
    alookup (handleCancelNotification
        (consume deferDispatcher initState slowRequestMsg).1 (.num 7)).clientReqFutures
        (.num 7) = none ∧
    alookup (runTask (consume deferDispatcher initState slowRequestMsg).1
        0).clientReqFutures (.num 7) = none ∧
    alookup (handleResponse pendingReqState (.str "r1") (some (.num 5))
        none).serverReqFutures (.str "r1") = none ∧
    alookup (cancelHandle (request initState (.str "r1") "m" none).1
        (request initState (.str "r1") "m" none).2).serverReqFutures (.str "r1")
      = some (request initState (.str "r1") "m" none).2 :=
  ⟨(table_entry_lifecycle (consume deferDispatcher initState slowRequestMsg).1
      (.num 7) none none).1,
   (table_entry_lifecycle (consume deferDispatcher initState slowRequestMsg).1
      (.num 7) none none).2.1 0 (.ok (some (.str "done"))) rfl rfl,
   (table_entry_lifecycle pendingReqState (.str "r1") (some (.num 5)) none).2.2.1,
   (table_entry_lifecycle initState (.str "r1") none none).2.2.2 "m" none
     (by intro q hq; exact absurd hq (List.not_mem_nil q))⟩

/-- C10: a message with the correct `jsonrpc` version but neither an `id`
nor a `method` key is routed to the notification path, which reads
`message['method']` unconditionally: `consume` raises `KeyError('method')`
instead of logging and dropping, with no state change and no output. -/
theorem consume_no_id_no_method_keyerror (d : Dispatcher) (s : EndpointState)
    (msg : Msg) (hver : msg.jsonrpc = some JSONRPC_VERSION)
    (hid : msg.id = none) (hm : msg.method = none) :
    consume d s msg = (s, some (.keyError "method")) := by
  simp [consume, hver, hid, hm]

/-- C10 witness: `{jsonrpc: "2.0"}` alone raises `KeyError('method')`. -/
theorem consume_no_id_no_method_keyerror_witness :
    consume echoDispatcher initState { Msg.empty with jsonrpc := some JSONRPC_VERSION }
      = (initState, some (.keyError "method")) :=
  consume_no_id_no_method_keyerror echoDispatcher initState _ rfl rfl rfl

end PyglsEndpoint
